import Mathlib

/-
Verification of the Archlinux publish plugin (src/qubesbuilder/plugins/
publish_archlinux/__init__.py) and the package stage CLI driver
(src/qubesbuilder/cli/cli_package.py) of qubes-builderv2.

The plugin is shallowly embedded: provenance records become structures,
the artifact-info store becomes an association list keyed by basename,
the repository directory tree becomes a set of paths, and the executor
becomes an oracle returning success or failure for a command batch.
Exceptions (PublishError) are modelled by an explicit error field that,
once set, stops the remaining control flow; the state reached at the
point of failure is kept, matching the persistence of side effects that
happened before a Python raise.

Helpers that live in the parent PublishPlugin class (not under src/) are
modelled from the spec and carry a doc comment saying so.
-/

namespace QubesBuilder

/-- One entry of the repository-publish list of a publish provenance
record: a channel name together with the timestamp at which the basename
was published there (src line 292-297). -/
structure PublishEntry where
  name : String
  timestamp : Nat
deriving Repr, DecidableEq

/-- A provenance record as held by the artifact info store.  Build-stage
records carry sourceHash and pkgs; publish-stage records additionally
carry the repositoryPublish list.  A build record, whose Python dict has
no repository-publish key, is represented with an empty list, which is
what info.setdefault at src line 292 treats a missing key as. -/
structure ArtifactInfo where
  sourceHash : String
  pkgs : List String
  repositoryPublish : List PublishEntry
deriving Repr, DecidableEq

/-- Modelled from the spec: the artifact provenance store of spec 4.2
(get_dist_artifacts_info / save_dist_artifacts_info /
delete_dist_artifacts_info live in the parent plugin classes, which are
not under src/).  A store for one stage is a list of basename-keyed
records; getInfo returns none for a missing record (the empty dict),
saveInfo overwrites, deleteInfo removes the record entirely. -/
abbrev InfoMap := List (String × ArtifactInfo)

def lookupInfo : InfoMap → String → Option ArtifactInfo
  | [], _ => none
  | (k, v) :: rest, bn => if k = bn then some v else lookupInfo rest bn

def saveInfo : InfoMap → String → ArtifactInfo → InfoMap
  | [], bn, i => [(bn, i)]
  | (k, v) :: rest, bn, i =>
      if k = bn then (bn, i) :: rest else (k, v) :: saveInfo rest bn i

def deleteInfo : InfoMap → String → InfoMap
  | [], _ => []
  | (k, v) :: rest, bn =>
      if k = bn then deleteInfo rest bn else (k, v) :: deleteInfo rest bn

/-- A filesystem path, one segment per component. -/
abbrev FPath := List String

/-- The published repository tree, as the set of package and signature
files present (order of the list is irrelevant; membership is what the
theorems use). -/
abbrev FS := List FPath

/-- Effect of os.link: the target path becomes present. -/
def fsAdd (fs : FS) (p : FPath) : FS := if p ∈ fs then fs else fs ++ [p]

/-- Effect of Path.unlink with missing_ok=True: the path is absent after. -/
def fsRemove (fs : FS) (p : FPath) : FS := fs.filter (fun q => q ≠ p)

/-- The external commands the plugin hands to the executor.  The Python
code builds shell strings; each constructor carries exactly the data the
corresponding f-string interpolates. -/
inductive Cmd where
  | gpgVerify (keyringDir : FPath) (pkg : FPath)
  | repoAddCreate (db : FPath)
  | repoAdd (db : FPath) (pkg : FPath)
  | repoRemove (db : FPath) (pkgName : String)
deriving Repr, DecidableEq

/-- The PublishError raise sites of the plugin, one constructor per site
(the unpublish materialization failure at src line 165 reuses the
"Failed to publish packages." message of the publish one, so both map to
failedPublishPackages). -/
inductive PubError where
  | cannotDetermineRepository
  | cannotFindKeyring
  | invalidRepositoryPublish (repository : String)
  | notEnoughSoakTime
  | cannotFindBuildInfo (directory : String)
  | failedCheckSignatures (directory : String)
  | failedPublishPackages (directory : String)
deriving Repr, DecidableEq

/-- The configuration and environment surrounding one plugin instance:
component and distribution attributes, the signing configuration, the
publish-repository configuration, the build directories of the component
(get_parameters(stage)["build"]), the basename normalization
(directory.mangle(), defined outside src/, kept abstract), and the
executor oracle.  now is the current time used both for the timestamp
recorded at publish time and for the soak-time comparison; times are
counted in whole days as spec 4.5 prescribes. -/
structure Cfg where
  componentStr : String
  distStr : String
  qubesRelease : String
  distType : String
  packageSet : String
  distName : String
  architecture : String
  verrel : String
  signKey : Bool
  gpgClient : Bool
  repositoryPublishComponents : Option String
  minAgeDays : Nat
  now : Nat
  validRepos : List String
  signArtifactsDirExists : Bool
  buildDirs : List String
  mangle : String → String
  hasComponentPackages : Bool
  buildArtifactsDir : FPath
  signArtifactsDir : FPath
  repoPublishDir : FPath
  execRun : List Cmd → Bool

/-- The mutable world the plugin acts on: the build-stage store, the
publish-stage store, and the published repository tree. -/
structure State where
  buildInfo : InfoMap
  publishInfo : InfoMap
  fs : FS
deriving Repr, DecidableEq

/-- Result of a plugin entry point: the state reached, the informational
log lines emitted, and the PublishError if one was raised.  When error
is some e, the state is the one at the moment of the raise (side effects
performed before the raise persist). -/
structure Out where
  state : State
  logs : List String
  error : Option PubError
deriving Repr, DecidableEq

def ctxStr (cfg : Cfg) (d : String) : String :=
  cfg.componentStr ++ ":" ++ cfg.distStr ++ ":" ++ d

def msgNothingToPublish (cfg : Cfg) (d : String) : String :=
  ctxStr cfg d ++ ": Nothing to publish."

def msgNothingToUnpublish (cfg : Cfg) (d : String) : String :=
  ctxStr cfg d ++ ": Nothing to unpublish."

def msgPublishing (cfg : Cfg) (d : String) : String :=
  ctxStr cfg d ++ ": Publishing packages."

def msgVerifying (cfg : Cfg) (d : String) : String :=
  ctxStr cfg d ++ ": Verifying signatures."

def msgUnpublishing (cfg : Cfg) (d : String) : String :=
  ctxStr cfg d ++ ": Unpublishing packages."

def msgHashMismatch (cfg : Cfg) (d : String) : String :=
  ctxStr cfg d ++ ": Current build hash does not match previous one."

def msgNoSignKey (cfg : Cfg) : String :=
  cfg.componentStr ++ ":" ++ cfg.distStr ++ ": No signing key found."

def msgNoGpgClient (cfg : Cfg) : String :=
  cfg.componentStr ++ ": Please specify GPG client to use!"

/-- The quotes around the repository name in the source message are
omitted here; the message content is otherwise the one of src line 230. -/
def msgAlreadyPublished (cfg : Cfg) (r : String) : String :=
  cfg.componentStr ++ ":" ++ cfg.distStr ++ ": Already published to " ++ r ++ "."

/-- Source line 311, quotes around the repository name omitted. -/
def msgNotPublished (cfg : Cfg) (r : String) : String :=
  cfg.componentStr ++ ":" ++ cfg.distStr ++ ": Not published to " ++ r ++ "."

def msgDeletingPublishInfo (cfg : Cfg) (d : String) : String :=
  ctxStr cfg d ++ ": Not published anywhere else, deleting publish info."

/-- Modelled from the spec: is_published of the parent PublishPlugin (not
under src/).  Spec 4.5 step 2: a basename is already published to a
repository iff its publish record has a repository-publish entry naming
that channel. -/
def isPublished (publishInfo : InfoMap) (bn repository : String) : Bool :=
  match lookupInfo publishInfo bn with
  | none => false
  | some i => i.repositoryPublish.any (fun e => e.name = repository)

/-- Modelled from the spec: the soak-time comparison of the parent
PublishPlugin (not under src/).  Spec numeric semantics: soak time is
measured in whole days from the recorded publish timestamp to the
current time, and boundary equality (exactly minAgeDays) counts as
satisfied. -/
def isOverMinAge (timestamp now minAgeDays : Nat) : Bool :=
  timestamp + minAgeDays ≤ now

/-- Modelled from the spec: can_be_published_in_stable of the parent
PublishPlugin (not under src/).  Spec 4.5 step 3: the basename must
already carry a publish entry in at least one staging channel whose
timestamp is at least minAgeDays in the past; the staging channels are
current-testing and security-testing (named in the failure message at
src lines 244-246); ignore_min_age overrides the gate. -/
def canBePublishedInStable (cfg : Cfg) (publishInfo : InfoMap) (bn : String)
    (ignoreMinAge : Bool) : Bool :=
  ignoreMinAge ||
    match lookupInfo publishInfo bn with
    | none => false
    | some i =>
        i.repositoryPublish.any (fun e =>
          (e.name = "current-testing" || e.name = "security-testing") &&
            isOverMinAge e.timestamp cfg.now cfg.minAgeDays)

/-- Modelled from the spec: validate_repository_publish of the parent
PublishPlugin (not under src/).  Spec 4.5 step 1: the requested channel
name must be one of the configured valid publish channels. -/
def validRepositoryPublish (cfg : Cfg) (repository : String) : Bool :=
  cfg.validRepos.contains repository

/-- The per-channel target directory of src lines 97-100 and 145-148:
repository-publish root / dist.type / qubes_release / repository_publish
/ package_set / dist.name.  The repositoryPublish argument is whatever
string the caller interpolates into the f-string. -/
def targetDir (cfg : Cfg) (repositoryPublish : String) : FPath :=
  cfg.repoPublishDir ++
    [cfg.distType, cfg.qubesRelease, repositoryPublish, cfg.packageSet, cfg.distName]

/-- Path.with_suffix(".zst.sig") applied to a package file name ending in
".zst" (build outputs end in ".pkg.tar.zst") replaces the final ".zst"
suffix by ".zst.sig", which is the same as appending ".sig". -/
def sigFileName (n : String) : String := n ++ ".sig"

/-- The pkg_name computation of src lines 158-160: the distribution
encoded suffix -verrel-architecture.pkg.tar.zst is removed from the
package file name (the source uses str.replace; for package file names
the suffix occurs once, at the end). -/
def stripPkgSuffix (cfg : Cfg) (n : String) : String :=
  let sfx := "-" ++ cfg.verrel ++ "-" ++ cfg.architecture ++ ".pkg.tar.zst"
  if n.endsWith sfx then n.dropRight sfx.length else n

/-- One iteration of the publish materialization loop of src lines
104-111: unlink the target, link the package and its signature into the
channel directory, and overwrite cmd with a single repo-add for this
package (the source assigns cmd with =, not +=, so earlier iterations
commands are discarded). -/
def materializeStep (cfg : Cfg) (tdir : FPath) (acc : FS × List Cmd)
    (n : String) : FS × List Cmd :=
  let tp := tdir ++ ["pkgs", n]
  let tsig := tdir ++ ["pkgs", sigFileName n]
  (fsAdd (fsAdd (fsRemove acc.1 tp) tp) tsig,
   [Cmd.repoAdd (tdir ++ ["pkgs", "qubes.db.tar.gz"])
      (cfg.buildArtifactsDir ++ ["pkgs", n])])

/-- The materialization of src lines 94-111: filesystem effects plus the
command list that reaches executor.run.  The guard at src line 102 reads
(target_dir / "pkgs/qubes.db").exists without calling it; the attribute
is a bound method object and therefore always truthy, so the repo-add
creation branch is dead and the command list starts empty. -/
def publishMaterialize (cfg : Cfg) (fs : FS) (tdir : FPath)
    (names : List String) : FS × List Cmd :=
  let dbExistsAttrTruthy := true
  let cmd0 : List Cmd :=
    if dbExistsAttrTruthy = false then
      [Cmd.repoAddCreate (tdir ++ ["pkgs", "qubes.db.tar.gz"])]
    else []
  names.foldl (materializeStep cfg tdir) (fs, cmd0)

/-- The publish method of src lines 58-117.  The directory basename
indexes the build record; a missing or package-less build record is a
logged no-op; otherwise signatures are verified through the executor,
the packages are materialized, and the resulting command batch is run. -/
def publishMethod (cfg : Cfg) (st : State)
    (directory repositoryPublish : String) : Out :=
  let bn := cfg.mangle directory
  match lookupInfo st.buildInfo bn with
  | none => ⟨st, [msgNothingToPublish cfg directory], none⟩
  | some bi =>
    if bi.pkgs.isEmpty then ⟨st, [msgNothingToPublish cfg directory], none⟩
    else
      let verifyCmds := bi.pkgs.map (fun n =>
        Cmd.gpgVerify (cfg.signArtifactsDir ++ ["keyring"])
          (cfg.buildArtifactsDir ++ ["pkgs", n]))
      if cfg.execRun verifyCmds then
        let m := publishMaterialize cfg st.fs (targetDir cfg repositoryPublish) bi.pkgs
        if cfg.execRun m.2 then
          ⟨{ st with fs := m.1 },
            [msgPublishing cfg directory, msgVerifying cfg directory], none⟩
        else
          ⟨{ st with fs := m.1 },
            [msgPublishing cfg directory, msgVerifying cfg directory],
            some (.failedPublishPackages directory)⟩
      else
        ⟨st, [msgPublishing cfg directory, msgVerifying cfg directory],
          some (.failedCheckSignatures directory)⟩

/-- One iteration of the unpublish loop of src lines 151-161: unlink the
target and its signature and overwrite cmd with a single repo-remove for
this package (again = instead of +=, so only the last package reaches
the executor). -/
def unpublishStep (cfg : Cfg) (tdir : FPath) (acc : FS × List Cmd)
    (n : String) : FS × List Cmd :=
  let tp := tdir ++ ["pkgs", n]
  let tsig := tdir ++ ["pkgs", sigFileName n]
  (fsRemove (fsRemove acc.1 tp) tsig,
   [Cmd.repoRemove (tdir ++ ["pkgs", "qubes.db.tar.gz"]) (stripPkgSuffix cfg n)])

/-- The unpublish method of src lines 119-167.  The early no-op return at
src line 149 tests (target_dir / "pkgs/qubes.db").exists without calling
it, so that guard is dead code and the body always proceeds. -/
def unpublishMethod (cfg : Cfg) (st : State)
    (directory repositoryPublish : String) : Out :=
  let bn := cfg.mangle directory
  match lookupInfo st.buildInfo bn with
  | none => ⟨st, [msgNothingToUnpublish cfg directory], none⟩
  | some bi =>
    if bi.pkgs.isEmpty then ⟨st, [msgNothingToUnpublish cfg directory], none⟩
    else
      let m := bi.pkgs.foldl (unpublishStep cfg (targetDir cfg repositoryPublish))
        (st.fs, [])
      if cfg.execRun m.2 then
        ⟨{ st with fs := m.1 }, [msgUnpublishing cfg directory], none⟩
      else
        ⟨{ st with fs := m.1 }, [msgUnpublishing cfg directory],
          some (.failedPublishPackages directory)⟩

/-- The Python str() of one repository-publish entry, as interpolated
into the channel path when run passes the whole entry mapping, and not
its name, to unpublish during the hash-invalidation cascade (src lines
275-280).  The surrounding quote characters of the Python repr are
omitted; what matters is that the string differs from the bare channel
name. -/
def pyDictStr (e : PublishEntry) : String :=
  "\x7bname: " ++ e.name ++ ", timestamp: " ++ toString e.timestamp ++ "\x7d"

/-- The hash-invalidation cascade of src lines 275-280: for every entry
of the stale record, unpublish is called with repository_publish bound
to the entry itself (the mapping), which the unpublish method then
interpolates into the channel path. -/
def cascadeUnpublish (cfg : Cfg) (directory : String) :
    State → List PublishEntry → Out
  | st, [] => ⟨st, [], none⟩
  | st, e :: rest =>
    let u := unpublishMethod cfg st directory (pyDictStr e)
    match u.error with
    | some err => ⟨u.state, u.logs, some err⟩
    | none =>
      let r := cascadeUnpublish cfg directory u.state rest
      ⟨r.state, u.logs ++ r.logs, r.error⟩

/-- The record update of src lines 291-300: append the
requestedChannel/now entry to repository-publish of the merged info and
persist it under the publish stage. -/
def appendAndSave (cfg : Cfg) (st : State) (info : ArtifactInfo)
    (bn repositoryPublish : String) : State :=
  let newInfo := { info with repositoryPublish :=
      info.repositoryPublish ++ [⟨repositoryPublish, cfg.now⟩] }
  { st with publishInfo := saveInfo st.publishInfo bn newInfo }

/-- src lines 284-300: run the publish method and, if it did not raise,
append the new entry and save the record. -/
def publishAndRecord (cfg : Cfg) (st : State) (logs0 : List String)
    (info : ArtifactInfo) (directory repositoryPublish bn : String) : Out :=
  let p := publishMethod cfg st directory repositoryPublish
  match p.error with
  | some e => ⟨p.state, logs0 ++ p.logs, some e⟩
  | none =>
    ⟨appendAndSave cfg p.state info bn repositoryPublish, logs0 ++ p.logs, none⟩

/-- The body of the publish loop, src lines 250-300: missing build info
raises; a stale publish record (source-hash mismatch) triggers the
cascade and the merged info is the build record; a matching publish
record becomes the merged info; then publish and record. -/
def publishLoopBody (cfg : Cfg) (st : State)
    (repositoryPublish directory : String) : Out :=
  let bn := cfg.mangle directory
  match lookupInfo st.buildInfo bn with
  | none => ⟨st, [], some (.cannotFindBuildInfo directory)⟩
  | some bi =>
    match lookupInfo st.publishInfo bn with
    | some pi =>
      if bi.sourceHash ≠ pi.sourceHash then
        let c := cascadeUnpublish cfg directory st pi.repositoryPublish
        match c.error with
        | some e => ⟨c.state, msgHashMismatch cfg directory :: c.logs, some e⟩
        | none =>
          publishAndRecord cfg c.state (msgHashMismatch cfg directory :: c.logs)
            bi directory repositoryPublish bn
      else publishAndRecord cfg st [] pi directory repositoryPublish bn
    | none => publishAndRecord cfg st [] bi directory repositoryPublish bn

/-- The publish loop over parameters["build"], stopping at the first
raised PublishError. -/
def publishLoop (cfg : Cfg) (repositoryPublish : String) :
    State → List String → List String → Out
  | st, [], logs => ⟨st, logs, none⟩
  | st, d :: rest, logs =>
    let b := publishLoopBody cfg st repositoryPublish d
    match b.error with
    | some e => ⟨b.state, logs ++ b.logs, some e⟩
    | none => publishLoop cfg repositoryPublish b.state rest (logs ++ b.logs)

/-- The publish direction of run, src lines 214-300: keyring presence,
channel validity, the already-published no-op, the stable-channel soak
gate, then the per-directory loop. -/
def publishBranch (cfg : Cfg) (st : State) (repositoryPublish : String)
    (ignoreMinAge : Bool) : Out :=
  if cfg.signArtifactsDirExists = false then
    ⟨st, [], some .cannotFindKeyring⟩
  else if validRepositoryPublish cfg repositoryPublish = false then
    ⟨st, [], some (.invalidRepositoryPublish repositoryPublish)⟩
  else if cfg.buildDirs.all
      (fun d => isPublished st.publishInfo (cfg.mangle d) repositoryPublish) then
    ⟨st, [msgAlreadyPublished cfg repositoryPublish], none⟩
  else if repositoryPublish = "current" &&
      !(cfg.buildDirs.all (fun d =>
        canBePublishedInStable cfg st.publishInfo (cfg.mangle d) ignoreMinAge)) then
    ⟨st, [], some .notEnoughSoakTime⟩
  else publishLoop cfg repositoryPublish st cfg.buildDirs []

/-- The body of the unpublish loop, src lines 315-346: read the publish
record, run the unpublish method, filter the matching channel entries
out of repository-publish, then persist the reduced record or, when the
list became empty, delete the record entirely. -/
def unpublishLoopBody (cfg : Cfg) (st : State)
    (repositoryPublish directory : String) : Out :=
  let bn := cfg.mangle directory
  let pi := lookupInfo st.publishInfo bn
  let u := unpublishMethod cfg st directory repositoryPublish
  match u.error with
  | some e => ⟨u.state, u.logs, some e⟩
  | none =>
    let old := match pi with | none => [] | some i => i.repositoryPublish
    let filtered := old.filter (fun e => e.name != repositoryPublish)
    if filtered.isEmpty then
      ⟨{ u.state with publishInfo := deleteInfo u.state.publishInfo bn },
        u.logs ++ [msgDeletingPublishInfo cfg directory], none⟩
    else
      let base := match pi with | none => (⟨"", [], []⟩ : ArtifactInfo) | some i => i
      let newInfo := { base with repositoryPublish := filtered }
      ⟨{ u.state with publishInfo := saveInfo u.state.publishInfo bn newInfo },
        u.logs, none⟩

/-- The unpublish loop over parameters["build"]. -/
def unpublishLoop (cfg : Cfg) (repositoryPublish : String) :
    State → List String → List String → Out
  | st, [], logs => ⟨st, logs, none⟩
  | st, d :: rest, logs =>
    let b := unpublishLoopBody cfg st repositoryPublish d
    match b.error with
    | some e => ⟨b.state, logs ++ b.logs, some e⟩
    | none => unpublishLoop cfg repositoryPublish b.state rest (logs ++ b.logs)

/-- The unpublish direction of run, src lines 302-346: a basename not
published to the channel makes the whole request a logged no-op. -/
def unpublishBranch (cfg : Cfg) (st : State) (repositoryPublish : String) : Out :=
  if (cfg.buildDirs.all
      (fun d => isPublished st.publishInfo (cfg.mangle d) repositoryPublish)) = false
  then ⟨st, [msgNotPublished cfg repositoryPublish], none⟩
  else unpublishLoop cfg repositoryPublish st cfg.buildDirs []

/-- run of src lines 169-346.  Stage filtering and the component-package
predicate first; a missing signing key or GPG client is a logged return,
not an error; the effective repository is the argument or the
configured components repository, and having neither raises; then the
publish or unpublish direction. -/
def run (cfg : Cfg) (st : State) (stage : String)
    (repositoryPublish : Option String) (ignoreMinAge unpublishFlag : Bool) : Out :=
  if (stage == "publish" && cfg.hasComponentPackages) = false then
    ⟨st, [], none⟩
  else if cfg.signKey = false then ⟨st, [msgNoSignKey cfg], none⟩
  else if cfg.gpgClient = false then ⟨st, [msgNoGpgClient cfg], none⟩
  else
    match (match repositoryPublish with
           | some r => some r
           | none => cfg.repositoryPublishComponents) with
    | none => ⟨st, [], some .cannotDetermineRepository⟩
    | some repo =>
      if unpublishFlag = false then publishBranch cfg st repo ignoreMinAge
      else unpublishBranch cfg st repo

/-
The package stage CLI driver, src/qubesbuilder/cli/cli_package.py.
-/

/-- The four plugins _component_stage instantiates for every
(component, distribution) pair, in source order (src/qubesbuilder/cli/
cli_package.py lines 30-75). -/
inductive PluginKind where
  | source
  | build
  | sign
  | publish
deriving Repr, DecidableEq

/-- One plugin.run(stage) invocation performed by the driver. -/
structure StageEvent where
  component : String
  dist : String
  plugin : PluginKind
  stage : String
deriving Repr, DecidableEq

def pluginChain : List PluginKind :=
  [PluginKind.source, PluginKind.build, PluginKind.sign, PluginKind.publish]

/-- _component_stage (cli_package.py lines 21-77): for every component,
for every distribution, each plugin of the chain runs the requested
stage; the sequence of plugin.run invocations it performs, in order. -/
def componentStageTrace (components dists : List String) (stageName : String) :
    List StageEvent :=
  components.flatMap (fun c =>
    dists.flatMap (fun d =>
      pluginChain.map (fun k => ⟨c, d, k, stageName⟩)))

/-- _all_package_stage (cli_package.py lines 80-84): for s in STAGES,
run _component_stage over the whole pair set; the concatenated
invocation sequence. -/
def allPackageStageTrace (stages components dists : List String) :
    List StageEvent :=
  stages.flatMap (fun s => componentStageTrace components dists s)

/-- Modelled from the spec: the fixed stage order of spec section 3; the
STAGES constant lives in qubesbuilder.config, which is not under src/. -/
def STAGES : List String :=
  ["fetch", "prep", "build", "post", "verify", "sign", "publish"]

/-
Concrete fixtures used by the witnesses and counterexamples below.
-/

def cfgW : Cfg := {
  componentStr := "vmm-xen", distStr := "vm-archlinux",
  qubesRelease := "r4.2", distType := "archlinux", packageSet := "vm",
  distName := "archlinux", architecture := "x86_64", verrel := "4.17.2-5",
  signKey := true, gpgClient := true,
  repositoryPublishComponents := none,
  minAgeDays := 5, now := 100,
  validRepos := ["current", "current-testing", "security-testing", "unstable"],
  signArtifactsDirExists := true,
  buildDirs := ["vmm-xen"],
  mangle := fun d => d,
  hasComponentPackages := true,
  buildArtifactsDir := ["artifacts", "components", "vmm-xen", "build"],
  signArtifactsDir := ["artifacts", "components", "vmm-xen", "sign"],
  repoPublishDir := ["artifacts", "repository-publish"],
  execRun := fun _ => true }

def pkgW : String := "xen-4.17.2-5-x86_64.pkg.tar.zst"

/-- Fresh build, nothing published yet. -/
def stW : State :=
  { buildInfo := [("vmm-xen", ⟨"h1", [pkgW], []⟩)], publishInfo := [], fs := [] }

/-- The state reached by publishing stW to current-testing. -/
def st1W : State := {
  buildInfo := [("vmm-xen", ⟨"h1", [pkgW], []⟩)],
  publishInfo := [("vmm-xen", ⟨"h1", [pkgW], [⟨"current-testing", 100⟩]⟩)],
  fs := [targetDir cfgW "current-testing" ++ ["pkgs", pkgW],
         targetDir cfgW "current-testing" ++ ["pkgs", sigFileName pkgW]] }

def l1W : List String := [msgPublishing cfgW "vmm-xen", msgVerifying cfgW "vmm-xen"]

/-- Published to the staging channel 2 days ago (timestamp 98, now 100),
younger than the 5-day minimum age. -/
def stSoakW : State := {
  buildInfo := [("vmm-xen", ⟨"h1", [pkgW], []⟩)],
  publishInfo := [("vmm-xen", ⟨"h1", [pkgW], [⟨"current-testing", 98⟩]⟩)],
  fs := [] }

/-- Build-stage record absent, yet a stale publish record still lists
current-testing. -/
def stNoBuildPubW : State := {
  buildInfo := [],
  publishInfo := [("vmm-xen", ⟨"h1", [pkgW], [⟨"current-testing", 10⟩]⟩)],
  fs := [] }

/-- Both stores empty. -/
def stEmptyW : State := { buildInfo := [], publishInfo := [], fs := [] }

/-- Published to two channels. -/
def stPub2W : State := {
  buildInfo := [("vmm-xen", ⟨"h1", [pkgW], []⟩)],
  publishInfo := [("vmm-xen",
    ⟨"h1", [pkgW], [⟨"current-testing", 10⟩, ⟨"security-testing", 20⟩]⟩)],
  fs := [] }

/-- Published to one channel only. -/
def stPub1W : State := {
  buildInfo := [("vmm-xen", ⟨"h1", [pkgW], []⟩)],
  publishInfo := [("vmm-xen", ⟨"h1", [pkgW], [⟨"current-testing", 10⟩]⟩)],
  fs := [] }

/-- Build record present but with an empty package list. -/
def stNoPkgsW : State :=
  { buildInfo := [("vmm-xen", ⟨"h1", [], []⟩)], publishInfo := [], fs := [] }

/-- Build with source-hash h2 while the publish record was made under h1
and its files sit in the current-testing channel directory. -/
def stStaleW : State := {
  buildInfo := [("vmm-xen", ⟨"h2", [pkgW], []⟩)],
  publishInfo := [("vmm-xen", ⟨"h1", [pkgW], [⟨"current-testing", 10⟩]⟩)],
  fs := [targetDir cfgW "current-testing" ++ ["pkgs", pkgW],
         targetDir cfgW "current-testing" ++ ["pkgs", sigFileName pkgW]] }

/-- Executor that rejects every command batch. -/
def cfgFailW : Cfg := { cfgW with execRun := fun _ => false }

/-- No signing key configured. -/
def cfgNoKeyW : Cfg := { cfgW with signKey := false }

/-
Store lemmas.
-/

theorem lookupInfo_saveInfo_self (m : InfoMap) (bn : String) (i : ArtifactInfo) :
    lookupInfo (saveInfo m bn i) bn = some i := by
  induction m with
  | nil => simp [saveInfo, lookupInfo]
  | cons kv rest ih =>
    obtain ⟨k, v⟩ := kv
    by_cases h : k = bn
    · simp [saveInfo, lookupInfo, h]
    · simp [saveInfo, lookupInfo, h, ih]

theorem lookupInfo_saveInfo_ne (m : InfoMap) (bn bn' : String) (i : ArtifactInfo)
    (h : bn' ≠ bn) : lookupInfo (saveInfo m bn i) bn' = lookupInfo m bn' := by
  have h' : ¬ bn = bn' := fun hh => h hh.symm
  induction m with
  | nil => simp [saveInfo, lookupInfo, h']
  | cons kv rest ih =>
    obtain ⟨k, v⟩ := kv
    by_cases hk : k = bn
    · subst hk
      simp [saveInfo, lookupInfo, h']
    · simp [saveInfo, lookupInfo, hk, ih]

theorem lookupInfo_deleteInfo_self (m : InfoMap) (bn : String) :
    lookupInfo (deleteInfo m bn) bn = none := by
  induction m with
  | nil => simp [deleteInfo, lookupInfo]
  | cons kv rest ih =>
    obtain ⟨k, v⟩ := kv
    by_cases h : k = bn
    · simp [deleteInfo, h, ih]
    · simp [deleteInfo, lookupInfo, h, ih]

theorem lookupInfo_deleteInfo_ne (m : InfoMap) (bn bn' : String)
    (h : bn' ≠ bn) : lookupInfo (deleteInfo m bn) bn' = lookupInfo m bn' := by
  have h' : ¬ bn = bn' := fun hh => h hh.symm
  induction m with
  | nil => simp [deleteInfo]
  | cons kv rest ih =>
    obtain ⟨k, v⟩ := kv
    by_cases hk : k = bn
    · subst hk
      simp [deleteInfo, lookupInfo, h', ih]
    · simp [deleteInfo, lookupInfo, hk, ih]

/-
Preservation lemmas: the publish and unpublish methods touch only the
filesystem component of the state, and no entry point ever writes the
build-stage store.
-/

theorem publishMethod_buildInfo (cfg : Cfg) (st : State) (d r : String) :
    (publishMethod cfg st d r).state.buildInfo = st.buildInfo := by
  cases hb : lookupInfo st.buildInfo (cfg.mangle d) with
  | none => simp [publishMethod, hb]
  | some bi =>
    simp only [publishMethod, hb]
    split
    · rfl
    · split
      · split <;> rfl
      · rfl

theorem publishMethod_publishInfo (cfg : Cfg) (st : State) (d r : String) :
    (publishMethod cfg st d r).state.publishInfo = st.publishInfo := by
  cases hb : lookupInfo st.buildInfo (cfg.mangle d) with
  | none => simp [publishMethod, hb]
  | some bi =>
    simp only [publishMethod, hb]
    split
    · rfl
    · split
      · split <;> rfl
      · rfl

theorem unpublishMethod_buildInfo (cfg : Cfg) (st : State) (d r : String) :
    (unpublishMethod cfg st d r).state.buildInfo = st.buildInfo := by
  cases hb : lookupInfo st.buildInfo (cfg.mangle d) with
  | none => simp [unpublishMethod, hb]
  | some bi =>
    simp only [unpublishMethod, hb]
    split
    · rfl
    · split <;> rfl

theorem unpublishMethod_publishInfo (cfg : Cfg) (st : State) (d r : String) :
    (unpublishMethod cfg st d r).state.publishInfo = st.publishInfo := by
  cases hb : lookupInfo st.buildInfo (cfg.mangle d) with
  | none => simp [unpublishMethod, hb]
  | some bi =>
    simp only [unpublishMethod, hb]
    split
    · rfl
    · split <;> rfl

theorem cascadeUnpublish_buildInfo (cfg : Cfg) (d : String) :
    ∀ (es : List PublishEntry) (st : State),
      (cascadeUnpublish cfg d st es).state.buildInfo = st.buildInfo := by
  intro es
  induction es with
  | nil => intro st; rfl
  | cons e rest ih =>
    intro st
    simp only [cascadeUnpublish]
    cases hu : (unpublishMethod cfg st d (pyDictStr e)).error with
    | some err => exact unpublishMethod_buildInfo cfg st d (pyDictStr e)
    | none => rw [ih, unpublishMethod_buildInfo]

theorem cascadeUnpublish_publishInfo (cfg : Cfg) (d : String) :
    ∀ (es : List PublishEntry) (st : State),
      (cascadeUnpublish cfg d st es).state.publishInfo = st.publishInfo := by
  intro es
  induction es with
  | nil => intro st; rfl
  | cons e rest ih =>
    intro st
    simp only [cascadeUnpublish]
    cases hu : (unpublishMethod cfg st d (pyDictStr e)).error with
    | some err => exact unpublishMethod_publishInfo cfg st d (pyDictStr e)
    | none => rw [ih, unpublishMethod_publishInfo]

/-
Success lemmas: with an executor that accepts every command batch, the
methods never raise.
-/

theorem publishMethod_error_none (cfg : Cfg) (st : State) (d r : String)
    (hex : ∀ cs, cfg.execRun cs = true) :
    (publishMethod cfg st d r).error = none := by
  cases hb : lookupInfo st.buildInfo (cfg.mangle d) with
  | none => simp [publishMethod, hb]
  | some bi =>
    simp only [publishMethod, hb]
    split
    · rfl
    · simp [hex]

theorem unpublishMethod_error_none (cfg : Cfg) (st : State) (d r : String)
    (hex : ∀ cs, cfg.execRun cs = true) :
    (unpublishMethod cfg st d r).error = none := by
  cases hb : lookupInfo st.buildInfo (cfg.mangle d) with
  | none => simp [unpublishMethod, hb]
  | some bi =>
    simp only [unpublishMethod, hb]
    split
    · rfl
    · simp [hex]

theorem cascadeUnpublish_error_none (cfg : Cfg) (d : String)
    (hex : ∀ cs, cfg.execRun cs = true) :
    ∀ (es : List PublishEntry) (st : State),
      (cascadeUnpublish cfg d st es).error = none := by
  intro es
  induction es with
  | nil => intro st; rfl
  | cons e rest ih =>
    intro st
    have hu := unpublishMethod_error_none cfg st d (pyDictStr e) hex
    simp [cascadeUnpublish, hu, ih]

theorem publishAndRecord_error_none (cfg : Cfg) (st : State) (logs0 : List String)
    (info : ArtifactInfo) (d r bn : String) (hex : ∀ cs, cfg.execRun cs = true) :
    (publishAndRecord cfg st logs0 info d r bn).error = none := by
  have hp := publishMethod_error_none cfg st d r hex
  simp [publishAndRecord, hp]

theorem publishAndRecord_ok_state (cfg : Cfg) (st : State) (logs0 : List String)
    (info : ArtifactInfo) (d r bn : String)
    (h : (publishAndRecord cfg st logs0 info d r bn).error = none) :
    (publishAndRecord cfg st logs0 info d r bn).state =
      appendAndSave cfg (publishMethod cfg st d r).state info bn r := by
  cases hp : (publishMethod cfg st d r).error with
  | some e => simp [publishAndRecord, hp] at h
  | none => simp [publishAndRecord, hp]

/-
Record-shape lemmas for appendAndSave.
-/

theorem appendAndSave_buildInfo (cfg : Cfg) (st : State) (info : ArtifactInfo)
    (bn r : String) : (appendAndSave cfg st info bn r).buildInfo = st.buildInfo := rfl

theorem lookup_appendAndSave_self (cfg : Cfg) (st : State) (info : ArtifactInfo)
    (bn r : String) :
    lookupInfo (appendAndSave cfg st info bn r).publishInfo bn =
      some { info with repositoryPublish :=
        info.repositoryPublish ++ [⟨r, cfg.now⟩] } := by
  simp [appendAndSave, lookupInfo_saveInfo_self]

theorem lookup_appendAndSave_ne (cfg : Cfg) (st : State) (info : ArtifactInfo)
    (bn bn' r : String) (h : bn' ≠ bn) :
    lookupInfo (appendAndSave cfg st info bn r).publishInfo bn' =
      lookupInfo st.publishInfo bn' := by
  simp [appendAndSave, lookupInfo_saveInfo_ne _ _ _ _ h]

theorem isPublished_appendAndSave_self (cfg : Cfg) (st : State)
    (info : ArtifactInfo) (bn r : String) :
    isPublished (appendAndSave cfg st info bn r).publishInfo bn r = true := by
  rw [isPublished, lookup_appendAndSave_self]
  simp

theorem isPublished_appendAndSave_mono (cfg : Cfg) (st : State)
    (info : ArtifactInfo) (bn bn' r : String)
    (h : isPublished st.publishInfo bn' r = true) :
    isPublished (appendAndSave cfg st info bn r).publishInfo bn' r = true := by
  by_cases hbn : bn' = bn
  · subst hbn; exact isPublished_appendAndSave_self cfg st info bn' r
  · rw [isPublished, lookup_appendAndSave_ne cfg st info bn bn' r hbn]
    rw [isPublished] at h
    exact h

/-
Inversion lemmas for the publish loop body.
-/

theorem publishLoopBody_missing (cfg : Cfg) (st : State) (r d : String)
    (hb : lookupInfo st.buildInfo (cfg.mangle d) = none) :
    publishLoopBody cfg st r d = ⟨st, [], some (.cannotFindBuildInfo d)⟩ := by
  simp [publishLoopBody, hb]

theorem publishLoopBody_ok_state (cfg : Cfg) (st : State) (r d : String)
    (h : (publishLoopBody cfg st r d).error = none) :
    ∃ info fsSt, (publishLoopBody cfg st r d).state =
        appendAndSave cfg fsSt info (cfg.mangle d) r ∧
      fsSt.publishInfo = st.publishInfo ∧ fsSt.buildInfo = st.buildInfo := by
  cases hb : lookupInfo st.buildInfo (cfg.mangle d) with
  | none => rw [publishLoopBody_missing cfg st r d hb] at h; simp at h
  | some bi =>
    cases hp : lookupInfo st.publishInfo (cfg.mangle d) with
    | none =>
      simp only [publishLoopBody, hb, hp] at h ⊢
      exact ⟨bi, (publishMethod cfg st d r).state,
        publishAndRecord_ok_state cfg st [] bi d r (cfg.mangle d) h,
        publishMethod_publishInfo cfg st d r, publishMethod_buildInfo cfg st d r⟩
    | some pi =>
      simp only [publishLoopBody, hb, hp] at h ⊢
      by_cases hh : bi.sourceHash = pi.sourceHash
      · rw [if_neg (by simpa using hh)] at h ⊢
        exact ⟨pi, (publishMethod cfg st d r).state,
          publishAndRecord_ok_state cfg st [] pi d r (cfg.mangle d) h,
          publishMethod_publishInfo cfg st d r, publishMethod_buildInfo cfg st d r⟩
      · rw [if_pos (by simpa using hh)] at h ⊢
        cases hc : (cascadeUnpublish cfg d st pi.repositoryPublish).error with
        | some e => simp [hc] at h
        | none =>
          simp only [hc] at h ⊢
          refine ⟨bi,
            (publishMethod cfg (cascadeUnpublish cfg d st pi.repositoryPublish).state d r).state,
            publishAndRecord_ok_state cfg _ _ bi d r (cfg.mangle d) h, ?_, ?_⟩
          · rw [publishMethod_publishInfo, cascadeUnpublish_publishInfo]
          · rw [publishMethod_buildInfo, cascadeUnpublish_buildInfo]

theorem publishLoopBody_ok_published (cfg : Cfg) (st : State) (r d : String)
    (h : (publishLoopBody cfg st r d).error = none) :
    isPublished (publishLoopBody cfg st r d).state.publishInfo (cfg.mangle d) r = true := by
  obtain ⟨info, fsSt, hst, hpub, hbuild⟩ := publishLoopBody_ok_state cfg st r d h
  rw [hst]
  exact isPublished_appendAndSave_self cfg fsSt info (cfg.mangle d) r

theorem publishLoopBody_ok_mono (cfg : Cfg) (st : State) (r d : String)
    (h : (publishLoopBody cfg st r d).error = none) (bn : String)
    (hbn : isPublished st.publishInfo bn r = true) :
    isPublished (publishLoopBody cfg st r d).state.publishInfo bn r = true := by
  obtain ⟨info, fsSt, hst, hpub, hbuild⟩ := publishLoopBody_ok_state cfg st r d h
  rw [hst]
  apply isPublished_appendAndSave_mono
  rw [isPublished, hpub]
  rw [isPublished] at hbn
  exact hbn

theorem publishLoopBody_ok_lookup_ne (cfg : Cfg) (st : State) (r d : String)
    (h : (publishLoopBody cfg st r d).error = none) (bn : String)
    (hne : bn ≠ cfg.mangle d) :
    lookupInfo (publishLoopBody cfg st r d).state.publishInfo bn =
      lookupInfo st.publishInfo bn := by
  obtain ⟨info, fsSt, hst, hpub, hbuild⟩ := publishLoopBody_ok_state cfg st r d h
  rw [hst, lookup_appendAndSave_ne cfg fsSt info (cfg.mangle d) bn r hne, hpub]

theorem publishLoopBody_ok_buildInfo (cfg : Cfg) (st : State) (r d : String)
    (h : (publishLoopBody cfg st r d).error = none) :
    (publishLoopBody cfg st r d).state.buildInfo = st.buildInfo := by
  obtain ⟨info, fsSt, hst, hpub, hbuild⟩ := publishLoopBody_ok_state cfg st r d h
  rw [hst, appendAndSave_buildInfo, hbuild]

/-
Loop lemmas.
-/

theorem publishLoop_ok_published (cfg : Cfg) (r : String) :
    ∀ (dirs : List String) (st : State) (logs0 l₁ : List String) (st₁ : State),
      publishLoop cfg r st dirs logs0 = ⟨st₁, l₁, none⟩ →
      (∀ bn, isPublished st.publishInfo bn r = true →
        isPublished st₁.publishInfo bn r = true) ∧
      (∀ d ∈ dirs, isPublished st₁.publishInfo (cfg.mangle d) r = true) := by
  intro dirs
  induction dirs with
  | nil =>
    intro st logs0 l₁ st₁ h
    simp only [publishLoop, Out.mk.injEq] at h
    obtain ⟨h1, -, -⟩ := h
    subst h1
    exact ⟨fun bn hbn => hbn, fun d hd => absurd hd (List.not_mem_nil d)⟩
  | cons d rest ih =>
    intro st logs0 l₁ st₁ h
    simp only [publishLoop] at h
    cases hberr : (publishLoopBody cfg st r d).error with
    | some e =>
      simp only [hberr, Out.mk.injEq] at h
      exact absurd h.2.2 (by simp)
    | none =>
      simp only [hberr] at h
      obtain ⟨mono, alldirs⟩ := ih _ _ _ _ h
      refine ⟨fun bn hbn => mono bn (publishLoopBody_ok_mono cfg st r d hberr bn hbn),
        fun d' hd' => ?_⟩
      cases List.mem_cons.mp hd' with
      | inl heq =>
        subst heq
        exact mono _ (publishLoopBody_ok_published cfg st r d' hberr)
      | inr hmem => exact alldirs d' hmem

theorem publishBranch_ok_idem (cfg : Cfg) (st : State) (repo : String)
    (ima : Bool) (st₁ : State) (l₁ : List String)
    (h : publishBranch cfg st repo ima = ⟨st₁, l₁, none⟩) :
    ∃ l₂, publishBranch cfg st₁ repo ima = ⟨st₁, l₂, none⟩ := by
  unfold publishBranch at h ⊢
  by_cases h1 : cfg.signArtifactsDirExists = false
  · rw [if_pos h1] at h
    simp at h
  · rw [if_neg h1] at h ⊢
    by_cases h2 : validRepositoryPublish cfg repo = false
    · rw [if_pos h2] at h
      simp at h
    · rw [if_neg h2] at h ⊢
      by_cases h3 : (cfg.buildDirs.all
          (fun d => isPublished st.publishInfo (cfg.mangle d) repo)) = true
      · rw [if_pos h3] at h
        simp only [Out.mk.injEq] at h
        obtain ⟨hst, -, -⟩ := h
        subst hst
        rw [if_pos h3]
        exact ⟨_, rfl⟩
      · rw [if_neg h3] at h
        by_cases h4 : (repo = "current" && !(cfg.buildDirs.all (fun d =>
            canBePublishedInStable cfg st.publishInfo (cfg.mangle d) ima))) = true
        · rw [if_pos h4] at h
          simp at h
        · rw [if_neg h4] at h
          obtain ⟨-, alldirs⟩ := publishLoop_ok_published cfg repo cfg.buildDirs st [] l₁ st₁ h
          have hall : (cfg.buildDirs.all
              (fun d => isPublished st₁.publishInfo (cfg.mangle d) repo)) = true :=
            List.all_eq_true.mpr (fun d hd => alldirs d hd)
          rw [if_pos hall]
          exact ⟨_, rfl⟩

/-- Claim C4: for every basename and channel, running the publish stage
twice in a row with the same arguments leaves the state (provenance
records and on-disk repository tree) identical after the second run and
appends no duplicate repository-publish entry: whenever a first run with
the unpublish flag off completes without a PublishError, the second run
returns success with the state unchanged, having detected the existing
entries (src lines 221-232). -/
theorem c4_idempotent_publish (cfg : Cfg) (st : State) (stage : String)
    (ro : Option String) (ima : Bool) (st₁ : State) (l₁ : List String)
    (h : run cfg st stage ro ima false = ⟨st₁, l₁, none⟩) :
    ∃ l₂, run cfg st₁ stage ro ima false = ⟨st₁, l₂, none⟩ := by
  unfold run at h ⊢
  by_cases h1 : (stage == "publish" && cfg.hasComponentPackages) = false
  · rw [if_pos h1] at h ⊢
    simp only [Out.mk.injEq] at h
    obtain ⟨hst, -, -⟩ := h
    subst hst
    exact ⟨[], rfl⟩
  · rw [if_neg h1] at h ⊢
    by_cases h2 : cfg.signKey = false
    · rw [if_pos h2] at h ⊢
      simp only [Out.mk.injEq] at h
      obtain ⟨hst, -, -⟩ := h
      subst hst
      exact ⟨_, rfl⟩
    · rw [if_neg h2] at h ⊢
      by_cases h3 : cfg.gpgClient = false
      · rw [if_pos h3] at h ⊢
        simp only [Out.mk.injEq] at h
        obtain ⟨hst, -, -⟩ := h
        subst hst
        exact ⟨_, rfl⟩
      · rw [if_neg h3] at h ⊢
        cases hro : (match ro with
            | some r => some r
            | none => cfg.repositoryPublishComponents) with
        | none =>
          simp only [hro] at h
          simp at h
        | some repo =>
          simp only [hro, if_true] at h ⊢
          exact publishBranch_ok_idem cfg st repo ima st₁ l₁ h

theorem c4_idempotent_publish_witness :
    run cfgW stW "publish" (some "current-testing") false false = ⟨st1W, l1W, none⟩ ∧
    ∃ l₂, run cfgW st1W "publish" (some "current-testing") false false =
      ⟨st1W, l₂, none⟩ :=
  ⟨by decide,
   c4_idempotent_publish cfgW stW "publish" (some "current-testing") false st1W l1W
     (by decide)⟩

/-- Claim C8: for a basename not currently listed as published to the
requested channel, requesting unpublish is a no-op reported as success:
no PublishError, the state is unchanged, and the informational
not-published message is logged (src lines 302-313). -/
theorem c8_unpublish_not_published_noop (cfg : Cfg) (st : State) (r d : String)
    (hp : cfg.hasComponentPackages = true) (hs : cfg.signKey = true)
    (hg : cfg.gpgClient = true) (hd : d ∈ cfg.buildDirs)
    (hnp : isPublished st.publishInfo (cfg.mangle d) r = false) :
    run cfg st "publish" (some r) false true =
      ⟨st, [msgNotPublished cfg r], none⟩ := by
  have hall : (cfg.buildDirs.all
      (fun d' => isPublished st.publishInfo (cfg.mangle d') r)) = false := by
    cases hc : cfg.buildDirs.all (fun d' => isPublished st.publishInfo (cfg.mangle d') r) with
    | false => rfl
    | true =>
      have := List.all_eq_true.mp hc d hd
      simp only [hnp] at this
      cases this
  simp [run, unpublishBranch, hp, hs, hg, hall]

theorem c8_unpublish_not_published_noop_witness :
    isPublished stW.publishInfo (cfgW.mangle "vmm-xen") "current-testing" = false ∧
    run cfgW stW "publish" (some "current-testing") false true =
      ⟨stW, [msgNotPublished cfgW "current-testing"], none⟩ :=
  ⟨by decide,
   c8_unpublish_not_published_noop cfgW stW "current-testing" "vmm-xen"
     (by decide) (by decide) (by decide) (by decide) (by decide)⟩

/-- Claim C3: requesting publication to the stable channel current
without ignore_min_age fails with the explicit soak-time PublishError
and performs no state mutation whenever some basename lacks a staging
publication old enough; and the soak comparison counts a staging
publication exactly minAgeDays old as satisfying the gate while a
strictly younger one does not. -/
theorem c3_stable_gate (cfg : Cfg) (st : State)
    (hp : cfg.hasComponentPackages = true) (hs : cfg.signKey = true)
    (hg : cfg.gpgClient = true) (hdir : cfg.signArtifactsDirExists = true)
    (hv : validRepositoryPublish cfg "current" = true)
    (hall : (cfg.buildDirs.all
      (fun d => isPublished st.publishInfo (cfg.mangle d) "current")) = false)
    (hgate : (cfg.buildDirs.all (fun d =>
      canBePublishedInStable cfg st.publishInfo (cfg.mangle d) false)) = false) :
    run cfg st "publish" (some "current") false false =
      ⟨st, [], some .notEnoughSoakTime⟩ ∧
    (∀ ts m : Nat, isOverMinAge ts (ts + m) m = true) ∧
    (∀ ts m now : Nat, now < ts + m → isOverMinAge ts now m = false) := by
  refine ⟨?_, ?_, ?_⟩
  · simp [run, publishBranch, hp, hs, hg, hdir, hv, hall, hgate]
  · intro ts m
    simp [isOverMinAge]
  · intro ts m now hlt
    simp only [isOverMinAge, decide_eq_false_iff_not]
    omega

theorem publishLoopBody_ok_of_build (cfg : Cfg) (st : State) (r d : String)
    (hex : ∀ cs, cfg.execRun cs = true) (bi : ArtifactInfo)
    (hb : lookupInfo st.buildInfo (cfg.mangle d) = some bi) :
    (publishLoopBody cfg st r d).error = none := by
  cases hp : lookupInfo st.publishInfo (cfg.mangle d) with
  | none =>
    simp only [publishLoopBody, hb, hp]
    exact publishAndRecord_error_none cfg st [] bi d r (cfg.mangle d) hex
  | some pi =>
    simp only [publishLoopBody, hb, hp]
    by_cases hh : bi.sourceHash = pi.sourceHash
    · rw [if_neg (by simpa using hh)]
      exact publishAndRecord_error_none cfg st [] pi d r (cfg.mangle d) hex
    · rw [if_pos (by simpa using hh)]
      have hc := cascadeUnpublish_error_none cfg d hex pi.repositoryPublish st
      simp only [hc]
      exact publishAndRecord_error_none cfg _ _ bi d r (cfg.mangle d) hex

theorem publishLoop_missing_build (cfg : Cfg) (r : String)
    (hex : ∀ cs, cfg.execRun cs = true) :
    ∀ (dirs : List String) (st : State) (logs0 : List String),
      (∃ d ∈ dirs, lookupInfo st.buildInfo (cfg.mangle d) = none) →
      (∃ d', (publishLoop cfg r st dirs logs0).error =
        some (.cannotFindBuildInfo d')) ∧
      (∀ bn, lookupInfo st.buildInfo bn = none →
        lookupInfo (publishLoop cfg r st dirs logs0).state.publishInfo bn =
          lookupInfo st.publishInfo bn) := by
  intro dirs
  induction dirs with
  | nil =>
    rintro st logs0 ⟨d, hd, -⟩
    exact absurd hd (List.not_mem_nil d)
  | cons d rest ih =>
    rintro st logs0 ⟨d0, hd0, hnone⟩
    cases hb : lookupInfo st.buildInfo (cfg.mangle d) with
    | none =>
      have hbody := publishLoopBody_missing cfg st r d hb
      simp only [publishLoop, hbody]
      exact ⟨⟨d, rfl⟩, fun bn _ => trivial⟩
    | some bi =>
      have hok := publishLoopBody_ok_of_build cfg st r d hex bi hb
      have hbuild := publishLoopBody_ok_buildInfo cfg st r d hok
      have hd0rest : d0 ∈ rest := by
        cases List.mem_cons.mp hd0 with
        | inl heq =>
          subst heq
          rw [hb] at hnone
          cases hnone
        | inr hm => exact hm
      have hex2 : ∃ d' ∈ rest,
          lookupInfo (publishLoopBody cfg st r d).state.buildInfo (cfg.mangle d') = none :=
        ⟨d0, hd0rest, by rw [hbuild]; exact hnone⟩
      obtain ⟨herr, hpres⟩ :=
        ih (publishLoopBody cfg st r d).state (logs0 ++ (publishLoopBody cfg st r d).logs) hex2
      simp only [publishLoop, hok]
      refine ⟨herr, fun bn hbn => ?_⟩
      have hne : bn ≠ cfg.mangle d := by
        intro heq
        rw [heq, hb] at hbn
        cases hbn
      have h1 := publishLoopBody_ok_lookup_ne cfg st r d hok bn hne
      have h2 := hpres bn (by rw [hbuild]; exact hbn)
      rw [h2, h1]

/-- Claim C6 (amended): when a basename of the build-directory set is not
already recorded as published to the (non-stable, valid) requested
channel and its build-stage provenance record is absent, the publish
stage fails with the cannot-find-build-info PublishError and writes no
publish record for that basename. -/
theorem c6_missing_build_fails (cfg : Cfg) (st : State) (r d : String)
    (hp : cfg.hasComponentPackages = true) (hs : cfg.signKey = true)
    (hg : cfg.gpgClient = true) (hdir : cfg.signArtifactsDirExists = true)
    (hv : validRepositoryPublish cfg r = true)
    (hex : ∀ cs, cfg.execRun cs = true)
    (hall : (cfg.buildDirs.all
      (fun d' => isPublished st.publishInfo (cfg.mangle d') r)) = false)
    (hcur : r ≠ "current")
    (hd : d ∈ cfg.buildDirs)
    (hb : lookupInfo st.buildInfo (cfg.mangle d) = none) :
    (∃ d', (run cfg st "publish" (some r) false false).error =
      some (.cannotFindBuildInfo d')) ∧
    lookupInfo (run cfg st "publish" (some r) false false).state.publishInfo
        (cfg.mangle d) =
      lookupInfo st.publishInfo (cfg.mangle d) := by
  have hloop := publishLoop_missing_build cfg r hex cfg.buildDirs st [] ⟨d, hd, hb⟩
  have hrun : run cfg st "publish" (some r) false false =
      publishLoop cfg r st cfg.buildDirs [] := by
    simp [run, publishBranch, hp, hs, hg, hdir, hv, hall, hcur]
  rw [hrun]
  exact ⟨hloop.1, hloop.2 (cfg.mangle d) hb⟩

/-- Counterexample to claim C6 as stated: a basename whose build-stage
record is absent but whose stale publish record still lists the
requested channel makes the publish stage return success (the
already-published no-op of src lines 221-232) instead of failing with a
provenance error. -/
theorem c6_absent_build_already_published_noop :
    lookupInfo stNoBuildPubW.buildInfo (cfgW.mangle "vmm-xen") = none ∧
    run cfgW stNoBuildPubW "publish" (some "current-testing") false false =
      ⟨stNoBuildPubW, [msgAlreadyPublished cfgW "current-testing"], none⟩ := by
  decide

theorem c6_missing_build_fails_witness :
    lookupInfo stEmptyW.buildInfo (cfgW.mangle "vmm-xen") = none ∧
    (∃ d', (run cfgW stEmptyW "publish" (some "current-testing") false false).error =
      some (.cannotFindBuildInfo d')) :=
  ⟨by decide,
   (c6_missing_build_fails cfgW stEmptyW "current-testing" "vmm-xen"
     (by decide) (by decide) (by decide) (by decide) (by decide)
     (fun _ => rfl) (by decide) (by decide) (by decide) (by decide)).1⟩

/-
Unpublish loop lemmas.
-/

theorem unpublishLoopBody_error_none (cfg : Cfg) (st : State) (r d : String)
    (hex : ∀ cs, cfg.execRun cs = true) :
    (unpublishLoopBody cfg st r d).error = none := by
  have hu := unpublishMethod_error_none cfg st d r hex
  simp only [unpublishLoopBody, hu]
  split <;> rfl

theorem unpublishLoopBody_buildInfo (cfg : Cfg) (st : State) (r d : String)
    (hex : ∀ cs, cfg.execRun cs = true) :
    (unpublishLoopBody cfg st r d).state.buildInfo = st.buildInfo := by
  have hu := unpublishMethod_error_none cfg st d r hex
  simp only [unpublishLoopBody, hu]
  split <;> (dsimp only; rw [unpublishMethod_buildInfo])

theorem unpublishLoopBody_lookup_ne (cfg : Cfg) (st : State) (r d bn : String)
    (hex : ∀ cs, cfg.execRun cs = true) (hne : bn ≠ cfg.mangle d) :
    lookupInfo (unpublishLoopBody cfg st r d).state.publishInfo bn =
      lookupInfo st.publishInfo bn := by
  have hu := unpublishMethod_error_none cfg st d r hex
  simp only [unpublishLoopBody, hu]
  split
  · dsimp only
    rw [unpublishMethod_publishInfo, lookupInfo_deleteInfo_ne _ _ _ hne]
  · dsimp only
    rw [unpublishMethod_publishInfo, lookupInfo_saveInfo_ne _ _ _ _ hne]

theorem unpublishLoopBody_lookup_self (cfg : Cfg) (st : State) (r d : String)
    (pi : ArtifactInfo) (hex : ∀ cs, cfg.execRun cs = true)
    (hpi : lookupInfo st.publishInfo (cfg.mangle d) = some pi) :
    lookupInfo (unpublishLoopBody cfg st r d).state.publishInfo (cfg.mangle d) =
      (if (pi.repositoryPublish.filter (fun e => e.name != r)).isEmpty then none
       else some { pi with repositoryPublish :=
         pi.repositoryPublish.filter (fun e => e.name != r) }) := by
  have hu := unpublishMethod_error_none cfg st d r hex
  simp only [unpublishLoopBody, hu, hpi]
  by_cases hf : (pi.repositoryPublish.filter (fun e => e.name != r)).isEmpty
  · rw [if_pos hf, if_pos hf]
    dsimp only
    rw [unpublishMethod_publishInfo, lookupInfo_deleteInfo_self]
  · rw [if_neg hf, if_neg hf]
    dsimp only
    rw [unpublishMethod_publishInfo, lookupInfo_saveInfo_self]

theorem unpublishLoop_result (cfg : Cfg) (r : String)
    (hex : ∀ cs, cfg.execRun cs = true) :
    ∀ (dirs : List String) (st : State) (logs0 : List String),
      (dirs.map cfg.mangle).Nodup →
      (unpublishLoop cfg r st dirs logs0).error = none ∧
      (∀ bn, bn ∉ dirs.map cfg.mangle →
        lookupInfo (unpublishLoop cfg r st dirs logs0).state.publishInfo bn =
          lookupInfo st.publishInfo bn) ∧
      (∀ d ∈ dirs, ∀ pi, lookupInfo st.publishInfo (cfg.mangle d) = some pi →
        lookupInfo (unpublishLoop cfg r st dirs logs0).state.publishInfo (cfg.mangle d) =
          (if (pi.repositoryPublish.filter (fun e => e.name != r)).isEmpty then none
           else some { pi with repositoryPublish :=
             pi.repositoryPublish.filter (fun e => e.name != r) })) := by
  intro dirs
  induction dirs with
  | nil =>
    intro st logs0 hnd
    exact ⟨rfl, fun bn _ => rfl, fun d hd => absurd hd (List.not_mem_nil d)⟩
  | cons d rest ih =>
    intro st logs0 hnd
    rw [List.map_cons, List.nodup_cons] at hnd
    obtain ⟨hdnotin, hndrest⟩ := hnd
    have hok := unpublishLoopBody_error_none cfg st r d hex
    simp only [unpublishLoop, hok]
    obtain ⟨herr, hother, hself⟩ :=
      ih (unpublishLoopBody cfg st r d).state
        (logs0 ++ (unpublishLoopBody cfg st r d).logs) hndrest
    refine ⟨herr, fun bn hbn => ?_, fun d' hd' pi hpi => ?_⟩
    · have hbn1 : bn ∉ List.map cfg.mangle rest := fun hc =>
        hbn (List.mem_cons.mpr (Or.inr hc))
      have hbn2 : bn ≠ cfg.mangle d := fun hc =>
        hbn (List.mem_cons.mpr (Or.inl hc))
      rw [hother bn hbn1, unpublishLoopBody_lookup_ne cfg st r d bn hex hbn2]
    · cases List.mem_cons.mp hd' with
      | inl heq =>
        subst heq
        have hnotin : cfg.mangle d' ∉ List.map cfg.mangle rest := hdnotin
        rw [hother (cfg.mangle d') hnotin,
          unpublishLoopBody_lookup_self cfg st r d' pi hex hpi]
      | inr hm =>
        have hne : cfg.mangle d' ≠ cfg.mangle d := by
          intro hc
          exact hdnotin (hc ▸ List.mem_map_of_mem cfg.mangle hm)
        have hpi2 : lookupInfo (unpublishLoopBody cfg st r d).state.publishInfo
            (cfg.mangle d') = some pi := by
          rw [unpublishLoopBody_lookup_ne cfg st r d (cfg.mangle d') hex hne, hpi]
        rw [hself d' hm pi hpi2]

/-- Claim C7: under guards that reach the unpublish direction with every
basename published to the requested channel, unpublishing removes the
matching channel entries from repository-publish; when the resulting
list is empty the publish record is deleted entirely (a subsequent
getInfo returns none), otherwise the reduced record is persisted
(src lines 329-346). -/
theorem c7_unpublish_record_cleanup (cfg : Cfg) (st : State) (r d : String)
    (pi : ArtifactInfo)
    (hp : cfg.hasComponentPackages = true) (hs : cfg.signKey = true)
    (hg : cfg.gpgClient = true)
    (hex : ∀ cs, cfg.execRun cs = true)
    (hnd : (cfg.buildDirs.map cfg.mangle).Nodup)
    (hall : (cfg.buildDirs.all
      (fun d' => isPublished st.publishInfo (cfg.mangle d') r)) = true)
    (hd : d ∈ cfg.buildDirs)
    (hpi : lookupInfo st.publishInfo (cfg.mangle d) = some pi) :
    (run cfg st "publish" (some r) false true).error = none ∧
    lookupInfo (run cfg st "publish" (some r) false true).state.publishInfo
        (cfg.mangle d) =
      (if (pi.repositoryPublish.filter (fun e => e.name != r)).isEmpty then none
       else some { pi with repositoryPublish :=
         pi.repositoryPublish.filter (fun e => e.name != r) }) := by
  have hrun : run cfg st "publish" (some r) false true =
      unpublishLoop cfg r st cfg.buildDirs [] := by
    simp [run, unpublishBranch, hp, hs, hg, hall]
  rw [hrun]
  obtain ⟨herr, hother, hself⟩ := unpublishLoop_result cfg r hex cfg.buildDirs st [] hnd
  exact ⟨herr, hself d hd pi hpi⟩

theorem c7_unpublish_record_cleanup_witness :
    lookupInfo stPub2W.publishInfo (cfgW.mangle "vmm-xen") =
      some ⟨"h1", [pkgW], [⟨"current-testing", 10⟩, ⟨"security-testing", 20⟩]⟩ ∧
    (run cfgW stPub2W "publish" (some "current-testing") false true).error = none ∧
    lookupInfo (run cfgW stPub2W "publish" (some "current-testing") false
        true).state.publishInfo (cfgW.mangle "vmm-xen") =
      (if (((⟨"h1", [pkgW], [⟨"current-testing", 10⟩, ⟨"security-testing", 20⟩]⟩ :
          ArtifactInfo)).repositoryPublish.filter
            (fun e => e.name != "current-testing")).isEmpty then none
       else some { (⟨"h1", [pkgW],
          [⟨"current-testing", 10⟩, ⟨"security-testing", 20⟩]⟩ : ArtifactInfo) with
         repositoryPublish :=
           (⟨"h1", [pkgW], [⟨"current-testing", 10⟩, ⟨"security-testing", 20⟩]⟩ :
             ArtifactInfo).repositoryPublish.filter
               (fun e => e.name != "current-testing") }) :=
  ⟨by decide,
   c7_unpublish_record_cleanup cfgW stPub2W "current-testing" "vmm-xen"
     ⟨"h1", [pkgW], [⟨"current-testing", 10⟩, ⟨"security-testing", 20⟩]⟩
     (by decide) (by decide) (by decide) (fun _ => rfl) (by decide) (by decide)
     (by decide) (by decide)⟩

theorem publishAndRecord_err_state (cfg : Cfg) (st : State) (logs0 : List String)
    (info : ArtifactInfo) (d r bn : String) (e : PubError)
    (h : (publishAndRecord cfg st logs0 info d r bn).error = some e) :
    (publishAndRecord cfg st logs0 info d r bn).state =
      (publishMethod cfg st d r).state := by
  cases hperr : (publishMethod cfg st d r).error with
  | some e2 => simp [publishAndRecord, hperr]
  | none => simp [publishAndRecord, hperr] at h

/-- Claim C2 (amended): a repository-publish entry is appended and the
record saved only when the publish operation for that channel returned
without raising: whenever the per-directory publish body of src lines
250-300 ends in a PublishError, the publish-stage store is left exactly
as it was.  (A build record listing no packages makes the publish
operation succeed as a logged no-op that materializes nothing, and the
entry is still appended; see the counterexample.) -/
theorem c2_no_entry_on_publish_failure (cfg : Cfg) (st : State) (r d : String)
    (e : PubError) (h : (publishLoopBody cfg st r d).error = some e) :
    (publishLoopBody cfg st r d).state.publishInfo = st.publishInfo := by
  cases hb : lookupInfo st.buildInfo (cfg.mangle d) with
  | none => rw [publishLoopBody_missing cfg st r d hb]
  | some bi =>
    cases hp : lookupInfo st.publishInfo (cfg.mangle d) with
    | none =>
      simp only [publishLoopBody, hb, hp] at h ⊢
      rw [publishAndRecord_err_state cfg st [] bi d r (cfg.mangle d) e h,
        publishMethod_publishInfo]
    | some pi =>
      simp only [publishLoopBody, hb, hp] at h ⊢
      by_cases hh : bi.sourceHash = pi.sourceHash
      · rw [if_neg (by simpa using hh)] at h ⊢
        rw [publishAndRecord_err_state cfg st [] pi d r (cfg.mangle d) e h,
          publishMethod_publishInfo]
      · rw [if_pos (by simpa using hh)] at h ⊢
        cases hc : (cascadeUnpublish cfg d st pi.repositoryPublish).error with
        | some e2 =>
          simp only [hc] at h ⊢
          rw [cascadeUnpublish_publishInfo]
        | none =>
          simp only [hc] at h ⊢
          rw [publishAndRecord_err_state cfg _ _ bi d r (cfg.mangle d) e h,
            publishMethod_publishInfo, cascadeUnpublish_publishInfo]

theorem c2_no_entry_on_publish_failure_witness :
    (publishLoopBody cfgFailW stW "current-testing" "vmm-xen").error =
      some (.failedCheckSignatures "vmm-xen") ∧
    (publishLoopBody cfgFailW stW "current-testing" "vmm-xen").state.publishInfo =
      stW.publishInfo :=
  ⟨by decide,
   c2_no_entry_on_publish_failure cfgFailW stW "current-testing" "vmm-xen"
     (.failedCheckSignatures "vmm-xen") (by decide)⟩

/-- Counterexample to claim C2 as stated: with a build record whose
package list is empty, publish is a logged no-op that materializes
nothing into the channel (the filesystem stays empty), yet the run
succeeds and still appends a repository-publish entry for the channel
and saves the record. -/
theorem c2_entry_appended_without_materialization :
    run cfgW stNoPkgsW "publish" (some "current-testing") false false =
      ⟨{ buildInfo := [("vmm-xen", ⟨"h1", [], []⟩)],
         publishInfo := [("vmm-xen", ⟨"h1", [], [⟨"current-testing", 100⟩]⟩)],
         fs := [] },
       [msgNothingToPublish cfgW "vmm-xen"], none⟩ := by decide

/-- Counterexample to claim C9 as stated: with no signing key configured
the publish stage returns success with the state unchanged and only an
informational log line (src lines 189-195); it does not abort with an
error. -/
theorem c9_missing_sign_key_silent_noop :
    cfgNoKeyW.signKey = false ∧
    run cfgNoKeyW stW "publish" (some "current-testing") false false =
      ⟨stW, [msgNoSignKey cfgNoKeyW], none⟩ := by decide

/-- Claim C9 (amended): a missing keyring directory from the sign stage
and an invalid requested channel abort that publish stage with a
PublishError (src lines 214-219), while a missing signing key or GPG
client is treated as a logged successful no-op (see the
counterexample). -/
theorem c9_keyring_and_channel_abort (cfg : Cfg) (st : State) (r : String)
    (hp : cfg.hasComponentPackages = true) (hs : cfg.signKey = true)
    (hg : cfg.gpgClient = true) :
    (cfg.signArtifactsDirExists = false →
      run cfg st "publish" (some r) false false =
        ⟨st, [], some .cannotFindKeyring⟩) ∧
    (cfg.signArtifactsDirExists = true → validRepositoryPublish cfg r = false →
      run cfg st "publish" (some r) false false =
        ⟨st, [], some (.invalidRepositoryPublish r)⟩) := by
  constructor
  · intro hdir
    simp [run, publishBranch, hp, hs, hg, hdir]
  · intro hdir hv
    simp [run, publishBranch, hp, hs, hg, hdir, hv]

theorem c9_keyring_and_channel_abort_witness :
    cfgW.signKey = true ∧
    ((cfgW.signArtifactsDirExists = false →
      run cfgW stW "publish" (some "bogus") false false =
        ⟨stW, [], some .cannotFindKeyring⟩) ∧
     (cfgW.signArtifactsDirExists = true →
      validRepositoryPublish cfgW "bogus" = false →
      run cfgW stW "publish" (some "bogus") false false =
        ⟨stW, [], some (.invalidRepositoryPublish "bogus")⟩)) :=
  ⟨by decide,
   c9_keyring_and_channel_abort cfgW stW "bogus" (by decide) (by decide) (by decide)⟩

/-- Claim C1, evaluated at the failing input: re-publishing the stale
basename (publish record under h1 listing current-testing, build now
h2) to security-testing succeeds and ends with repository-publish equal
to exactly the one new entry under source-hash h2 — but the package and
signature files of the stale current-testing publication are still
present afterwards: the cascade of src lines 275-280 passes the whole
repository-publish entry mapping, not its channel name, to unpublish,
so the removal targets a nonsense path and the stale channel is never
cleaned. -/
theorem c1_cascade_leaves_stale_channel_files :
    (run cfgW stStaleW "publish" (some "security-testing") false false).error =
      none ∧
    lookupInfo (run cfgW stStaleW "publish"
        (some "security-testing") false false).state.publishInfo "vmm-xen" =
      some ⟨"h2", [pkgW], [⟨"security-testing", 100⟩]⟩ ∧
    (targetDir cfgW "current-testing" ++ ["pkgs", pkgW]) ∈
      (run cfgW stStaleW "publish" (some "security-testing") false false).state.fs ∧
    (targetDir cfgW "current-testing" ++ ["pkgs", sigFileName pkgW]) ∈
      (run cfgW stStaleW "publish" (some "security-testing") false false).state.fs := by
  decide

/-- Claim C5, evaluated at the failing input: materializing two packages
links both packages and both signatures into the channel directory, but
the command batch handed to the executor holds exactly one repo-add,
naming only the last package, and no index-creation command: the loop
of src lines 104-111 reassigns cmd instead of appending, and the
creation guard of src line 102 tests the uncalled .exists attribute and
is dead. -/
theorem c5_materialize_only_last_package_indexed :
    (publishMaterialize cfgW [] (targetDir cfgW "current-testing")
        ["a.pkg.tar.zst", "b.pkg.tar.zst"]).2 =
      [Cmd.repoAdd (targetDir cfgW "current-testing" ++ ["pkgs", "qubes.db.tar.gz"])
        (cfgW.buildArtifactsDir ++ ["pkgs", "b.pkg.tar.zst"])] ∧
    (targetDir cfgW "current-testing" ++ ["pkgs", "a.pkg.tar.zst"]) ∈
      (publishMaterialize cfgW [] (targetDir cfgW "current-testing")
        ["a.pkg.tar.zst", "b.pkg.tar.zst"]).1 ∧
    (targetDir cfgW "current-testing" ++ ["pkgs", sigFileName "a.pkg.tar.zst"]) ∈
      (publishMaterialize cfgW [] (targetDir cfgW "current-testing")
        ["a.pkg.tar.zst", "b.pkg.tar.zst"]).1 ∧
    (targetDir cfgW "current-testing" ++ ["pkgs", "b.pkg.tar.zst"]) ∈
      (publishMaterialize cfgW [] (targetDir cfgW "current-testing")
        ["a.pkg.tar.zst", "b.pkg.tar.zst"]).1 ∧
    (targetDir cfgW "current-testing" ++ ["pkgs", sigFileName "b.pkg.tar.zst"]) ∈
      (publishMaterialize cfgW [] (targetDir cfgW "current-testing")
        ["a.pkg.tar.zst", "b.pkg.tar.zst"]).1 := by
  decide

theorem c3_stable_gate_witness :
    (cfgW.buildDirs.all (fun d =>
      canBePublishedInStable cfgW stSoakW.publishInfo (cfgW.mangle d) false)) = false ∧
    run cfgW stSoakW "publish" (some "current") false false =
      ⟨stSoakW, [], some .notEnoughSoakTime⟩ :=
  ⟨by decide,
   (c3_stable_gate cfgW stSoakW (by decide) (by decide) (by decide) (by decide)
     (by decide) (by decide) (by decide)).1⟩

/-
CLI stage ordering.
-/

theorem stage_of_mem_componentStageTrace (components dists : List String)
    (s : String) (e : StageEvent)
    (h : e ∈ componentStageTrace components dists s) : e.stage = s := by
  simp only [componentStageTrace, List.mem_flatMap, List.mem_map] at h
  obtain ⟨c, -, d, -, k, -, rfl⟩ := h
  rfl

theorem stage_mem_of_mem_allPackageStageTrace (stages components dists : List String)
    (e : StageEvent) (h : e ∈ allPackageStageTrace stages components dists) :
    e.stage ∈ stages := by
  simp only [allPackageStageTrace, List.mem_flatMap] at h
  obtain ⟨s, hs, he⟩ := h
  rw [stage_of_mem_componentStageTrace components dists s e he]
  exact hs

/-- Claim C10: requesting all stages executes the fixed stage order once
per stage over the whole pair set: in the sequence of plugin.run
invocations produced by _all_package_stage, every invocation belonging
to an earlier stage of the (duplicate-free) stage list occurs strictly
before every invocation belonging to a later stage, whatever the pairs
are — so every pair completes stage N before any pair begins stage
N+1. -/
theorem c10_all_stages_ordering (components dists : List String) (s₁ s₂ : String) :
    ∀ (stages : List String), stages.Nodup → s₁ ∈ stages → s₂ ∈ stages →
      stages.indexOf s₁ < stages.indexOf s₂ →
      ∀ (a b : Nat) (e₁ e₂ : StageEvent),
        (allPackageStageTrace stages components dists)[a]? = some e₁ →
        (allPackageStageTrace stages components dists)[b]? = some e₂ →
        e₁.stage = s₁ → e₂.stage = s₂ → a < b := by
  intro stages
  induction stages with
  | nil =>
    intro _ h₁
    cases h₁
  | cons s rest ih =>
    intro hnd h₁ h₂ hlt a b e₁ e₂ ha hb hs₁ hs₂
    have htr : allPackageStageTrace (s :: rest) components dists =
        componentStageTrace components dists s ++
          allPackageStageTrace rest components dists := by
      simp [allPackageStageTrace]
    rw [htr] at ha hb
    rw [List.nodup_cons] at hnd
    obtain ⟨hsnot, hndrest⟩ := hnd
    by_cases hse : s₁ = s
    · have hs2ne : s₂ ≠ s := by
        intro hc
        rw [hse, hc] at hlt
        exact absurd hlt (lt_irrefl _)
      have hbL : (componentStageTrace components dists s).length ≤ b := by
        by_contra hc
        push_neg at hc
        rw [List.getElem?_append_left hc] at hb
        have hst := stage_of_mem_componentStageTrace components dists s e₂
          (List.getElem?_mem hb)
        exact hs2ne (hs₂.symm.trans hst)
      have haL : a < (componentStageTrace components dists s).length := by
        by_contra hc
        push_neg at hc
        rw [List.getElem?_append_right hc] at ha
        have hmem := List.getElem?_mem ha
        have hst := stage_mem_of_mem_allPackageStageTrace rest components dists e₁ hmem
        rw [hs₁, hse] at hst
        exact hsnot hst
      omega
    · have hs2ne : s₂ ≠ s := by
        intro hc
        rw [hc, List.indexOf_cons_self] at hlt
        exact Nat.not_lt_zero _ hlt
      have h₁r : s₁ ∈ rest := by
        cases List.mem_cons.mp h₁ with
        | inl hc => exact absurd hc hse
        | inr hm => exact hm
      have h₂r : s₂ ∈ rest := by
        cases List.mem_cons.mp h₂ with
        | inl hc => exact absurd hc hs2ne
        | inr hm => exact hm
      have haL : (componentStageTrace components dists s).length ≤ a := by
        by_contra hc
        push_neg at hc
        rw [List.getElem?_append_left hc] at ha
        have hst := stage_of_mem_componentStageTrace components dists s e₁
          (List.getElem?_mem ha)
        exact hse (hs₁.symm.trans hst)
      have hbL : (componentStageTrace components dists s).length ≤ b := by
        by_contra hc
        push_neg at hc
        rw [List.getElem?_append_left hc] at hb
        have hst := stage_of_mem_componentStageTrace components dists s e₂
          (List.getElem?_mem hb)
        exact hs2ne (hs₂.symm.trans hst)
      rw [List.getElem?_append_right haL] at ha
      rw [List.getElem?_append_right hbL] at hb
      have hltr : rest.indexOf s₁ < rest.indexOf s₂ := by
        rw [List.indexOf_cons_ne _ (Ne.symm hse),
          List.indexOf_cons_ne _ (Ne.symm hs2ne)] at hlt
        omega
      have := ih hndrest h₁r h₂r hltr _ _ e₁ e₂ ha hb hs₁ hs₂
      omega

theorem c10_all_stages_ordering_witness :
    (allPackageStageTrace STAGES ["c1", "c2"] ["archlinux"])[0]? =
      some ⟨"c1", "archlinux", PluginKind.source, "fetch"⟩ ∧
    (allPackageStageTrace STAGES ["c1", "c2"] ["archlinux"])[8]? =
      some ⟨"c1", "archlinux", PluginKind.source, "prep"⟩ ∧
    0 < 8 :=
  ⟨by decide, by decide,
   c10_all_stages_ordering ["c1", "c2"] ["archlinux"] "fetch" "prep" STAGES
     (by decide) (by decide) (by decide) (by decide) 0 8
     ⟨"c1", "archlinux", PluginKind.source, "fetch"⟩
     ⟨"c1", "archlinux", PluginKind.source, "prep"⟩
     (by decide) (by decide) rfl rfl⟩

end QubesBuilder
